import Mathlib

/-!
Verification development for the Netflix household auto-confirmation pipeline.

The development shallowly embeds the orchestration logic of the repository:

* `src/UrlExtractor.ts` — quoted-printable decoding, confirmation-link search,
  URL validation (the platform `URL` object is modelled by `parseUrl` below);
* `src/NetflixAutomation.ts` — the confirmation driver, embedded as a pure
  function over an environment describing the behaviour of the browser calls,
  producing an event trace and the resulting session-state file content;
* `src/ImapMonitor.ts` — the per-message part of a scan (age filter,
  extraction, validation, handler invocation, mark-read decision);
* `src/index.ts` — the startup credential check.

Strings are embedded as `List Char`; machine integers and timestamps as `Int`.
-/

namespace NetflixHousehold

/-! ## UrlExtractor: quoted-printable decoding

`extractNetflixUrl` first applies two JavaScript regex replacements to the
email body:
`replace(/=(\r?\n|$)/g, '')` and
`replace(/=([a-f0-9]{2})/gi, (m, code) => String.fromCharCode(parseInt(code, 16)))`.
Both are single left-to-right passes over the string, continuing after each
match, which is exactly what the structural recursions below implement. -/

/-- Characters matched by the character class of the hex-pair regex
(`[a-f0-9]` with the `i` flag), which is also the set accepted by the
WHATWG percent-decoder. -/
def isQpHexDigit (c : Char) : Bool :=
  decide (('0' ≤ c ∧ c ≤ '9') ∨ ('a' ≤ c ∧ c ≤ 'f') ∨ ('A' ≤ c ∧ c ≤ 'F'))

/-- Numeric value of a hex digit. -/
def hexVal (c : Char) : Nat :=
  if '0' ≤ c ∧ c ≤ '9' then c.toNat - '0'.toNat
  else if 'a' ≤ c ∧ c ≤ 'f' then c.toNat - 'a'.toNat + 10
  else if 'A' ≤ c ∧ c ≤ 'F' then c.toNat - 'A'.toNat + 10
  else 0

/-- Model of `body.replace(/=(\r?\n|$)/g, '')`: an equals sign followed by a
line break is removed together with the break (a quoted-printable soft line
break), and a trailing equals sign at the end of the input is removed. -/
def qpStripSoftBreaks : List Char → List Char
  | [] => []
  | '=' :: '\r' :: '\n' :: rest => qpStripSoftBreaks rest
  | '=' :: '\n' :: rest => qpStripSoftBreaks rest
  | ['='] => []
  | c :: rest => c :: qpStripSoftBreaks rest

/-- Model of `body.replace(/=([a-f0-9]{2})/gi, ...)`: an equals sign followed
by two hex digits (either case) is replaced by the character with that code.
The pass is left to right and does not rescan replaced output. -/
def qpDecodeHexPairs : List Char → List Char
  | '=' :: a :: b :: rest =>
    if isQpHexDigit a && isQpHexDigit b then
      Char.ofNat (16 * hexVal a + hexVal b) :: qpDecodeHexPairs rest
    else
      '=' :: qpDecodeHexPairs (a :: b :: rest)
  | c :: rest => c :: qpDecodeHexPairs rest
  | [] => []

/-- The decoding applied to the email body by `extractNetflixUrl` (the two
chained `replace` calls, in source order). -/
def decodeBody (body : List Char) : List Char :=
  qpDecodeHexPairs (qpStripSoftBreaks body)

/-! ## UrlExtractor: locating the confirmation link

The search regex is
`/"(https:\/\/www\.netflix\.com\/account\/update-primary-location[^"]*)"/`:
the first (leftmost) double quote followed by the fixed link start, then a
maximal run of non-quote characters, then a closing double quote. -/

/-- The fixed literal the link must start with. -/
def netflixLinkStart : List Char :=
  "https://www.netflix.com/account/update-primary-location".toList

/-- If `pat` starts the list, return the remainder after it. -/
def stripStart : List Char → List Char → Option (List Char)
  | [], l => some l
  | _ :: _, [] => none
  | p :: ps, c :: cs => if p == c then stripStart ps cs else none

/-- Characters up to (excluding) the next double quote, requiring that a
closing double quote exists (`[^"]*"` must complete for the regex to match). -/
def takeUntilQuote : List Char → Option (List Char)
  | [] => none
  | '"' :: _ => some []
  | c :: rest => (takeUntilQuote rest).map (fun t => c :: t)

/-- Try to match the link regex anchored at the head of the list. Returns the
captured group (the URL between the quotes). -/
def matchLinkAt (l : List Char) : Option (List Char) :=
  match l with
  | '"' :: rest =>
    match stripStart netflixLinkStart rest with
    | some rem => (takeUntilQuote rem).map (fun t => netflixLinkStart ++ t)
    | none => none
  | _ => none

/-- Leftmost match of the link regex anywhere in the list
(`decodedBody.match(regex)` keeps the first match). -/
def findLink : List Char → Option (List Char)
  | [] => none
  | c :: rest =>
    match matchLinkAt (c :: rest) with
    | some u => some u
    | none => findLink rest

/-! ## Model of the WHATWG URL object

The source relies on the platform `new URL(...)` constructor and its
`hostname`, `pathname` and `searchParams` accessors. `parseUrl` models the
WHATWG URL parser on the subset the program exercises: absolute URLs without
base, ASCII host names (no IDNA or percent-decoding inside the host, and no
IPv6 bracket syntax — a bracket is a parse failure here), no re-encoding of
the path, and byte-level percent-decoding of query names and values (no
UTF-8 recombination of multi-byte sequences). Parse failure (`none`) models
the constructor throwing. -/

structure UrlObj where
  scheme : List Char
  hostname : List Char
  pathname : List Char
  query : List Char
  deriving DecidableEq, Repr

/-- ASCII letter test. -/
def isAsciiAlpha (c : Char) : Bool :=
  decide (('a' ≤ c ∧ c ≤ 'z') ∨ ('A' ≤ c ∧ c ≤ 'Z'))

/-- ASCII digit test. -/
def isAsciiDigit (c : Char) : Bool :=
  decide ('0' ≤ c ∧ c ≤ '9')

/-- Characters allowed after the first character of a URL scheme. -/
def isSchemeChar (c : Char) : Bool :=
  isAsciiAlpha c || isAsciiDigit c || c == '+' || c == '-' || c == '.'

/-- ASCII lowercasing of one character. -/
def toLowerCh (c : Char) : Char :=
  if 'A' ≤ c ∧ c ≤ 'Z' then Char.ofNat (c.toNat + 32) else c

/-- ASCII lowercasing of a list of characters. -/
def toLowerL (l : List Char) : List Char := l.map toLowerCh

/-- C0 control or space, stripped from both ends of the input by the URL
constructor. -/
def isC0OrSpace (c : Char) : Bool := decide (c ≤ ' ')

/-- Strip leading and trailing C0 controls and spaces. -/
def trimC0Space (l : List Char) : List Char :=
  ((l.dropWhile isC0OrSpace).reverse.dropWhile isC0OrSpace).reverse

/-- Split off a valid scheme (letter, then letters, digits, plus, minus,
dot) followed by a colon; the scheme is lowercased. Without one the URL
constructor throws. -/
def splitScheme (l : List Char) : Option (List Char × List Char) :=
  match l with
  | [] => none
  | c :: rest =>
    if isAsciiAlpha c then
      match rest.dropWhile isSchemeChar with
      | ':' :: r2 => some (toLowerL (c :: rest.takeWhile isSchemeChar), r2)
      | _ => none
    else none

/-- Special schemes whose authority section consumes any run of slashes and
treats a backslash as a slash. `file` is deliberately not listed: the model
parses it through the generic branch, which matches its empty-host
behaviour on the inputs of interest. -/
def specialSchemes : List (List Char) :=
  ["http".toList, "https".toList, "ws".toList, "wss".toList, "ftp".toList]

/-- Forbidden host code points (parse failure when present in the host). -/
def forbiddenHostChar (c : Char) : Bool :=
  decide (c = Char.ofNat 0 ∨ c = ' ' ∨ c = '#' ∨ c = '/' ∨ c = ':' ∨ c = '<' ∨
    c = '>' ∨ c = '?' ∨ c = '@' ∨ c = '[' ∨ c = '\\' ∨ c = ']' ∨ c = '^' ∨
    c = '|' ∨ c = '%')

/-- Part of the authority after the last at sign (userinfo is discarded). -/
def afterLastAt (l : List Char) : List Char :=
  (l.reverse.takeWhile (fun c => c != '@')).reverse

/-- Split `host:port`; absent and empty port are both returned as `[]`. -/
def hostPort (l : List Char) : List Char × List Char :=
  let h := l.takeWhile (fun c => c != ':')
  (h, l.drop (h.length + 1))

/-- Digits of a port read as a number. -/
def digitsToNat (l : List Char) : Nat :=
  l.foldl (fun n c => 10 * n + (c.toNat - '0'.toNat)) 0

/-- A port is valid when empty or all digits with value at most 65535. -/
def portOk (p : List Char) : Bool :=
  p.all isAsciiDigit && (p.isEmpty || decide (digitsToNat p ≤ 65535))

/-- Parse the authority section: characters up to the first slash, question
mark, hash (or backslash for special schemes) hold userinfo, host and port.
Returns the lowercased host and the remainder. -/
def parseAuthority (special : Bool) (allowEmptyHost : Bool) (r : List Char) :
    Option (List Char × List Char) :=
  let isEnd := fun c => c == '/' || c == '?' || c == '#' || (special && c == '\\')
  let auth := r.takeWhile (fun c => !(isEnd c))
  let rest := r.drop auth.length
  let hp := hostPort (afterLastAt auth)
  if hp.1.any forbiddenHostChar then none
  else if !portOk hp.2 then none
  else if hp.1.isEmpty && !allowEmptyHost then none
  else some (toLowerL hp.1, rest)

/-- Split a list on a separator character (every occurrence; keeps empty
pieces, like the query component splitting on ampersands). -/
def splitOnChar (sep : Char) (l : List Char) : List (List Char) :=
  l.foldr
    (fun c acc =>
      match acc with
      | [] => [[c]]
      | cur :: rest => if c == sep then [] :: cur :: rest else (c :: cur) :: rest)
    [[]]

/-- Dot-segment removal over the path segments, with the WHATWG trailing
behaviour: a final single or double dot leaves a trailing slash. -/
def normSegsAux : List (List Char) → List (List Char) → List (List Char)
  | stack, [] => stack.reverse
  | stack, seg :: rest =>
    if seg = ['.'] then
      match rest with
      | [] => (([] : List Char) :: stack).reverse
      | _ :: _ => normSegsAux stack rest
    else if seg = ['.', '.'] then
      match rest with
      | [] => (([] : List Char) :: stack.tail).reverse
      | _ :: _ => normSegsAux stack.tail rest
    else normSegsAux (seg :: stack) rest

/-- Parse path and query after an authority. For special schemes a backslash
in the path acts as a slash. The serialized pathname always starts with a
slash; dot segments are resolved. -/
def parsePathQuery (special : Bool) (r : List Char) : List Char × List Char :=
  let pathRaw := r.takeWhile (fun c => c != '?' && c != '#')
  let rest := r.drop pathRaw.length
  let query :=
    match rest with
    | '?' :: q => q.takeWhile (fun c => c != '#')
    | _ => []
  let slashNorm :=
    if special then pathRaw.map (fun c => if c == '\\' then '/' else c) else pathRaw
  let segs :=
    match slashNorm with
    | '/' :: t => splitOnChar '/' t
    | [] => []
    | l => splitOnChar '/' l
  ('/' :: List.intercalate ['/'] (normSegsAux [] segs), query)

/-- Model of the WHATWG URL constructor (see the section comment above for
the modelled subset). -/
def parseUrl (input : List Char) : Option UrlObj :=
  let s1 := (trimC0Space input).filter (fun c => c != '\t' && c != '\n' && c != '\r')
  match splitScheme s1 with
  | none => none
  | some (sch, rest) =>
    if specialSchemes.contains sch then
      match parseAuthority true false (rest.dropWhile (fun c => c == '/' || c == '\\')) with
      | none => none
      | some (host, r3) =>
        let pq := parsePathQuery true r3
        some { scheme := sch, hostname := host, pathname := pq.1, query := pq.2 }
    else
      match rest with
      | '/' :: '/' :: r2 =>
        match parseAuthority false true r2 with
        | none => none
        | some (host, r3) =>
          let pq := parsePathQuery false r3
          some { scheme := sch, hostname := host, pathname := pq.1, query := pq.2 }
      | _ =>
        let pathRaw := rest.takeWhile (fun c => c != '?' && c != '#')
        let q :=
          match rest.drop pathRaw.length with
          | '?' :: t => t.takeWhile (fun c => c != '#')
          | _ => []
        some { scheme := sch, hostname := [], pathname := pathRaw, query := q }

/-! ## Model of URLSearchParams -/

/-- Percent-decoding with plus-to-space, as applied to query parameter names
and values. -/
def percentDecode : List Char → List Char
  | '%' :: a :: b :: rest =>
    if isQpHexDigit a && isQpHexDigit b then
      Char.ofNat (16 * hexVal a + hexVal b) :: percentDecode rest
    else
      '%' :: percentDecode (a :: b :: rest)
  | '+' :: rest => ' ' :: percentDecode rest
  | c :: rest => c :: percentDecode rest
  | [] => []

/-- Name-value pairs of the query: split on ampersands, drop empty pieces,
split each piece at its first equals sign, percent-decode both sides. -/
def paramPairs (q : List Char) : List (List Char × List Char) :=
  (splitOnChar '&' q).filterMap
    (fun part =>
      match part with
      | [] => none
      | _ :: _ =>
        let name := part.takeWhile (fun c => c != '=')
        let value :=
          match part.drop name.length with
          | '=' :: v => v
          | _ => []
        some (percentDecode name, percentDecode value))

/-- Model of `searchParams.get(name)`: value of the first pair with that
name. -/
def getParam (u : UrlObj) (name : List Char) : Option (List Char) :=
  ((paramPairs u.query).find? (fun p => p.1 == name)).map (fun p => p.2)

/-- Model of `searchParams.has(name)`. -/
def hasParam (u : UrlObj) (name : List Char) : Bool :=
  (paramPairs u.query).any (fun p => p.1 == name)

/-! ## UrlExtractor: the two exported functions -/

/-- The query parameter holding the confirmation token. -/
def nftokenName : List Char := "nftoken".toList

/-- The exact hostname `isValidUrl` requires. -/
def netflixHost : List Char := "www.netflix.com".toList

/-- The exact pathname `isValidUrl` requires. -/
def netflixPath : List Char := "/account/update-primary-location".toList

/-- Model of `UrlExtractor.extractNetflixUrl`: decode the body, take the
first quoted confirmation link, parse it, read the `nftoken` parameter, and
require it to be truthy (present and non-empty). The surrounding
`try/catch` returning `null` is modelled by totality with `none`. -/
def extractNetflixUrl (emailBody : List Char) : Option (List Char × List Char) :=
  match findLink (decodeBody emailBody) with
  | none => none
  | some url =>
    match parseUrl url with
    | none => none
    | some u =>
      match getParam u nftokenName with
      | none => none
      | some tok => if tok.isEmpty then none else some (url, tok)

/-- Model of `UrlExtractor.isValidUrl`: parse, then require exact hostname,
exact pathname and presence of the `nftoken` parameter; a parse failure
(constructor throw) is `false`. -/
def isValidUrl (url : List Char) : Bool :=
  match parseUrl url with
  | none => false
  | some u => u.hostname == netflixHost && u.pathname == netflixPath && hasParam u nftokenName

/-! ## Confirmation driver (`netflixAutomation`)

The driver is embedded as a pure function over a `DriverEnv` describing what
each browser-library call would do on this run: whether creating the context
or page throws, whether `page.goto` throws, what the expired-link banner
locator counts, whether the confirmation button locator finds the button,
whether the page body contains the expired text, and — for each click
attempt — whether the click throws, the success indicator fails to attach
within its timeout, or the success indicator attaches. The page is a single
underlying state, so one attempt has exactly one of those three outcomes
(the indicator cannot be simultaneously attached and absent).

The run is summarised by a `DriverRun`: the settled result of the returned
promise (the outer `catch` re-wraps the message of every failure, preserving
its kind, before re-throwing), the ordered trace of the effects the claims
talk about, and the content of the session-state file after the run
(`./tmp/storageState.json`, abstracted to `Option Nat`:
`none` = absent, `some v` = present with content `v`). -/

/-- Outcome of one click attempt against the live page. -/
inductive AttemptOutcome where
  | clickThrows
  | indicatorMissing
  | success
  deriving DecidableEq, Repr

/-- Underlying cause recorded in `lastError` by a failed attempt. -/
inductive Cause where
  | clickError
  | indicatorTimeout
  deriving DecidableEq, Repr

/-- The `lastError` value a failed attempt leaves behind; a successful
attempt records nothing. -/
def causeOf : AttemptOutcome → Option Cause
  | AttemptOutcome.clickThrows => some Cause.clickError
  | AttemptOutcome.indicatorMissing => some Cause.indicatorTimeout
  | AttemptOutcome.success => none

/-- Events of a driver run that the claims are about. -/
inductive Ev where
  | launch
  | navigate
  | clickAttempt (k : Nat)
  | backoff (k : Nat)
  | writeState
  | closeBrowser
  deriving DecidableEq, Repr

/-- Behaviour of the browser collaborators on one run. `snapshot` is the
storage-state content `browserContext.storageState` would persist. -/
structure DriverEnv where
  newContextThrows : Bool
  navThrows : Bool
  expiredBanner : Bool
  buttonPresent : Bool
  bodyNoLongerValid : Bool
  outcome : Nat → AttemptOutcome
  snapshot : Nat

/-- Kind of failure carried by the error the driver rethrows. -/
inductive FailKind where
  | contextError
  | navError
  | expiredLink
  | buttonNotFound
  | confirmFailed (attempts : Nat) (last : Option Cause)
  deriving DecidableEq, Repr

/-- State of the retry loop when it stops: the `confirmationSuccess` flag,
the final `lastError`, and the events of the loop body. -/
structure LoopRes where
  ok : Bool
  last : Option Cause
  evs : List Ev
  deriving Repr

/-- Events of one failed attempt: the click, then — only when another
attempt follows (`attempt < RETRY_ATTEMPTS`) — the backoff of
`attempt` time units (`1000 * attempt` milliseconds). -/
def failEvs (N a : Nat) : List Ev :=
  if a < N then [Ev.clickAttempt a, Ev.backoff a] else [Ev.clickAttempt a]

/-- The retry loop `for (let attempt = 1; attempt <= RETRY_ATTEMPTS; attempt++)`
from attempt `a` with accumulated `lastError`: a successful attempt breaks
out with `ok`; a failed attempt records its cause and, if attempts remain,
backs off before the next one. -/
def clickLoop (out : Nat → AttemptOutcome) (N a : Nat) (last : Option Cause) : LoopRes :=
  if _h : N < a then { ok := false, last := last, evs := [] }
  else
    match out a with
    | AttemptOutcome.success => { ok := true, last := last, evs := [Ev.clickAttempt a] }
    | o =>
      let r := clickLoop out N (a + 1) (causeOf o)
      { ok := r.ok, last := r.last, evs := failEvs N a ++ r.evs }
termination_by N + 1 - a
decreasing_by omega

/-- Summary of a full driver invocation. -/
structure DriverRun where
  result : Except FailKind Unit
  trace : List Ev
  file : Option Nat

/-- Model of `netflixAutomation(extractedUrl, logger)` with retry budget `N`
(`RETRY_ATTEMPTS`) and prior session-state file `fs`. Control flow follows
the source: the browser is launched and the context and page are created
before the `try` block (so a context/page creation failure propagates
without reaching the `finally`); inside the `try`, navigation, the
expired-banner check, the button-presence check (with the body-text
fallback), the click retry loop, and — only when the loop succeeded — the
storage-state write; the `finally` closes the browser on every path that
entered the `try`. -/
def netflixAutomation (env : DriverEnv) (N : Nat) (fs : Option Nat) : DriverRun :=
  if env.newContextThrows then
    { result := Except.error FailKind.contextError, trace := [Ev.launch], file := fs }
  else if env.navThrows then
    { result := Except.error FailKind.navError,
      trace := [Ev.launch, Ev.navigate, Ev.closeBrowser], file := fs }
  else if env.expiredBanner then
    { result := Except.error FailKind.expiredLink,
      trace := [Ev.launch, Ev.navigate, Ev.closeBrowser], file := fs }
  else if env.buttonPresent then
    let r := clickLoop env.outcome N 1 none
    if r.ok then
      { result := Except.ok (),
        trace := Ev.launch :: Ev.navigate :: (r.evs ++ [Ev.writeState, Ev.closeBrowser]),
        file := some env.snapshot }
    else
      { result := Except.error (FailKind.confirmFailed N r.last),
        trace := Ev.launch :: Ev.navigate :: (r.evs ++ [Ev.closeBrowser]), file := fs }
  else if env.bodyNoLongerValid then
    { result := Except.error FailKind.expiredLink,
      trace := [Ev.launch, Ev.navigate, Ev.closeBrowser], file := fs }
  else
    { result := Except.error FailKind.buttonNotFound,
      trace := [Ev.launch, Ev.navigate, Ev.closeBrowser], file := fs }

/-- Events of a run of consecutive failed attempts: `c` failures starting at
attempt `a`. -/
def failRun (N : Nat) : Nat → Nat → List Ev
  | _, 0 => []
  | a, c + 1 => failEvs N a ++ failRun N (a + 1) c

/-! ## Mail watcher: per-message processing (`ImapMonitor.handleNewEmails`)

A scan searches the mailbox for unread messages matching the sender and
subject filters, then processes each fetched message body. The per-message
logic (the `stream.on('end', ...)` callback, `ImapMonitor.ts` lines
200–248) is embedded as `processMessage`: the age filter, URL extraction,
URL validation, the awaited handler call, and the mark-read decision.
Timestamps are milliseconds since the epoch as `Int`; the age comparison
`(now - date) / 60000 > maxEmailAgeMinutes` is stated multiplied out, which
is equivalent for the integral configuration values the model covers. The
message UID comes from the search result array; JavaScript truthiness makes
the code treat a UID of `0` like a missing one. -/

/-- One fetched message as the callback sees it: the parsed `Date` header
(`none` when absent or unparseable), the UID from the search results, and
the body text. -/
structure MsgInput where
  date : Option Int
  uid : Nat
  bodyText : List Char

/-- Scan-relevant configuration and clock: `MAX_EMAIL_AGE_MINUTES` and the
value of `Date.now()` when the body callback runs. -/
structure ScanCfg where
  maxEmailAgeMinutes : Int
  now : Int

/-- Observable steps of processing one message. `markSeen` is the
`imap.addFlags(uid, '\Seen', ...)` call. -/
inductive MsgAction where
  | warnTooOld
  | warnNoUrl
  | warnInvalidUrl
  | invokeHandler
  | markSeen (uid : Nat)
  | warnNoUid
  | logHandlerFailed
  deriving DecidableEq, Repr

/-- Steps after the age filter: extract, validate, invoke the handler
(`handlerOk` says whether its promise fulfils), and on success mark the
message read when a UID is available; on failure only log. -/
def processBody (m : MsgInput) (handlerOk : Bool) : List MsgAction :=
  match extractNetflixUrl m.bodyText with
  | none => [MsgAction.warnNoUrl]
  | some ut =>
    if isValidUrl ut.1 then
      if handlerOk then
        MsgAction.invokeHandler ::
          (if m.uid ≠ 0 then [MsgAction.markSeen m.uid] else [MsgAction.warnNoUid])
      else
        [MsgAction.invokeHandler, MsgAction.logHandlerFailed]
    else
      [MsgAction.warnInvalidUrl]

/-- Model of the whole per-message callback: a message with a parsed date
older than `maxEmailAgeMinutes` is skipped with a warning before anything
else happens; a message without a usable date is processed anyway. -/
def processMessage (cfg : ScanCfg) (m : MsgInput) (handlerOk : Bool) : List MsgAction :=
  match m.date with
  | some d =>
    if cfg.now - d > 60000 * cfg.maxEmailAgeMinutes then [MsgAction.warnTooOld]
    else processBody m handlerOk
  | none => processBody m handlerOk

/-! ## Startup credential check (`index.ts` `main`)

Before the IMAP monitor is constructed or connected, `main` filters
`['IMAP_USER', 'IMAP_PASSWORD', 'IMAP_HOST']` for variables whose value is
falsy (unset, or set to the empty string) and throws an error listing all
of them when any is found. -/

/-- The required environment variable names, in source order. -/
def requiredEnvVarNames : List (List Char) :=
  ["IMAP_USER".toList, "IMAP_PASSWORD".toList, "IMAP_HOST".toList]

/-- A variable is treated as missing when it is unset or empty (JavaScript
truthiness of `process.env[varName]`). -/
def envVarMissing (lookup : List Char → Option (List Char)) (v : List Char) : Bool :=
  match lookup v with
  | none => true
  | some s => s.isEmpty

/-- The `missingVars` list computed by `main`. -/
def missingVars (lookup : List Char → Option (List Char)) : List (List Char) :=
  requiredEnvVarNames.filter (envVarMissing lookup)

/-- Marker that startup got past validation, constructed the monitor and
called `connect`. -/
inductive StartupOk where
  | monitorConnected
  deriving DecidableEq, Repr

/-- Model of `main` up to the point of connecting: with any required
variable missing it fails before connecting, carrying the enumerated list
of missing names; otherwise it proceeds to connect. -/
def mainStartup (lookup : List Char → Option (List Char)) :
    Except (List (List Char)) StartupOk :=
  if (missingVars lookup).isEmpty then Except.ok StartupOk.monitorConnected
  else Except.error (missingVars lookup)

deriving instance DecidableEq for Except

/-- Test for a click event, for counting click attempts in a trace. -/
def isClickEv : Ev → Bool
  | Ev.clickAttempt _ => true
  | _ => false

/-- Driver environment realising the retry scenario of the spec: context and
navigation succeed, the page is live with the button present, the first
click throws and the second attempt succeeds. -/
def envRetrySuccess : DriverEnv :=
  { newContextThrows := false, navThrows := false, expiredBanner := false,
    buttonPresent := true, bodyNoLongerValid := false,
    outcome := fun k => if k = 1 then AttemptOutcome.clickThrows else AttemptOutcome.success,
    snapshot := 9 }

/-- Driver environment where the loaded page shows the expired-link banner. -/
def envExpired : DriverEnv :=
  { newContextThrows := false, navThrows := false, expiredBanner := true,
    buttonPresent := true, bodyNoLongerValid := false,
    outcome := fun _ => AttemptOutcome.success, snapshot := 9 }

/-- Driver environment where creating the browser context (or page) throws,
for example because the stored session-state file is corrupt. -/
def envCtxThrow : DriverEnv :=
  { newContextThrows := true, navThrows := false, expiredBanner := false,
    buttonPresent := true, bodyNoLongerValid := false,
    outcome := fun _ => AttemptOutcome.success, snapshot := 9 }


/-! ## Lemmas about the retry loop -/

theorem clickAttempt_mem_failRun (N : Nat) :
    ∀ c a j, Ev.clickAttempt j ∈ failRun N a c ↔ (a ≤ j ∧ j < a + c) := by
  intro c
  induction c with
  | zero => intro a j; simp [failRun]
  | succ c ih =>
    intro a j
    simp only [failRun, failEvs, List.mem_append]
    by_cases h : a < N <;> simp [h, ih] <;> omega

theorem backoff_mem_failRun (N : Nat) :
    ∀ c a k, Ev.backoff k ∈ failRun N a c ↔ (a ≤ k ∧ k < a + c ∧ k < N) := by
  intro c
  induction c with
  | zero => intro a k; simp [failRun]; omega
  | succ c ih =>
    intro a k
    simp only [failRun, failEvs, List.mem_append]
    by_cases h : a < N <;> simp [h, ih] <;> omega

theorem writeState_not_mem_failRun (N : Nat) :
    ∀ c a, Ev.writeState ∉ failRun N a c := by
  intro c
  induction c with
  | zero => intro a; simp [failRun]
  | succ c ih =>
    intro a
    simp only [failRun, failEvs, List.mem_append]
    by_cases h : a < N <;> simp [h, ih]

theorem closeBrowser_not_mem_failRun (N : Nat) :
    ∀ c a, Ev.closeBrowser ∉ failRun N a c := by
  intro c
  induction c with
  | zero => intro a; simp [failRun]
  | succ c ih =>
    intro a
    simp only [failRun, failEvs, List.mem_append]
    by_cases h : a < N <;> simp [h, ih]

theorem clickLoop_all_fail (out : Nat → AttemptOutcome) (N : Nat) :
    ∀ m a last, N + 1 - a ≤ m →
    (∀ j, a ≤ j → j ≤ N → out j ≠ AttemptOutcome.success) →
    clickLoop out N a last =
      { ok := false, last := if a ≤ N then causeOf (out N) else last,
        evs := failRun N a (N + 1 - a) } := by
  intro m
  induction m with
  | zero =>
    intro a last hm _
    have ha : N < a := by omega
    rw [clickLoop, dif_pos ha]
    have : N + 1 - a = 0 := by omega
    simp [this, failRun, Nat.not_le.mpr ha]
  | succ m ih =>
    intro a last hm hfail
    by_cases ha : N < a
    · rw [clickLoop, dif_pos ha]
      have : N + 1 - a = 0 := by omega
      simp [this, failRun, Nat.not_le.mpr ha]
    · have haN : a ≤ N := by omega
      rw [clickLoop, dif_neg ha]
      have hne : out a ≠ AttemptOutcome.success := hfail a le_rfl haN
      have hsub : N + 1 - a = (N - a) + 1 := by omega
      cases ho : out a with
      | success => exact absurd ho hne
      | clickThrows =>
        have hrec := ih (a + 1) (causeOf AttemptOutcome.clickThrows) (by omega)
          (fun j h1 h2 => hfail j (by omega) h2)
        simp only [hrec, hsub, failRun]
        by_cases hEdge : a + 1 ≤ N
        · simp only [if_pos hEdge, if_pos haN]
          have h2 : N + 1 - (a + 1) = N - a := by omega
          rw [h2]
        · have haEq : a = N := by omega
          subst haEq
          simp [ho, show ¬(a + 1 ≤ a) by omega, Nat.sub_self, failRun, causeOf]
      | indicatorMissing =>
        have hrec := ih (a + 1) (causeOf AttemptOutcome.indicatorMissing) (by omega)
          (fun j h1 h2 => hfail j (by omega) h2)
        simp only [hrec, hsub, failRun]
        by_cases hEdge : a + 1 ≤ N
        · simp only [if_pos hEdge, if_pos haN]
          have h2 : N + 1 - (a + 1) = N - a := by omega
          rw [h2]
        · have haEq : a = N := by omega
          subst haEq
          simp [ho, show ¬(a + 1 ≤ a) by omega, Nat.sub_self, failRun, causeOf]

theorem clickLoop_first_success (out : Nat → AttemptOutcome) (N : Nat) :
    ∀ m k a last, k - a ≤ m → a ≤ k → k ≤ N → out k = AttemptOutcome.success →
    (∀ j, a ≤ j → j < k → out j ≠ AttemptOutcome.success) →
    ∃ l, clickLoop out N a last =
      { ok := true, last := l, evs := failRun N a (k - a) ++ [Ev.clickAttempt k] } := by
  intro m
  induction m with
  | zero =>
    intro k a last hm hak hkN hk _
    have hEq : a = k := by omega
    subst hEq
    rw [clickLoop, dif_neg (by omega)]
    refine ⟨last, ?_⟩
    simp [hk, Nat.sub_self, failRun]
  | succ m ih =>
    intro k a last hm hak hkN hk hmin
    by_cases hEq : a = k
    · subst hEq
      rw [clickLoop, dif_neg (by omega)]
      refine ⟨last, ?_⟩
      simp [hk, Nat.sub_self, failRun]
    · have halt : a < k := by omega
      rw [clickLoop, dif_neg (by omega)]
      have hne : out a ≠ AttemptOutcome.success := hmin a le_rfl halt
      have hsub : k - a = (k - (a + 1)) + 1 := by omega
      cases ho : out a with
      | success => exact absurd ho hne
      | clickThrows =>
        obtain ⟨l, hl⟩ := ih k (a + 1) (causeOf AttemptOutcome.clickThrows) (by omega)
          (by omega) hkN hk (fun j h1 h2 => hmin j (by omega) h2)
        refine ⟨l, ?_⟩
        simp only [hl, hsub, failRun]
        simp [List.append_assoc]
      | indicatorMissing =>
        obtain ⟨l, hl⟩ := ih k (a + 1) (causeOf AttemptOutcome.indicatorMissing) (by omega)
          (by omega) hkN hk (fun j h1 h2 => hmin j (by omega) h2)
        refine ⟨l, ?_⟩
        simp only [hl, hsub, failRun]
        simp [List.append_assoc]

/-- Every run of the retry loop either stops at the least successful attempt
or exhausts all attempts; in both cases the event list and outcome are
described explicitly. -/
theorem clickLoop_run_cases (out : Nat → AttemptOutcome) (N a : Nat) (last : Option Cause) :
    (∃ k l, a ≤ k ∧ k ≤ N ∧ out k = AttemptOutcome.success ∧
      (∀ j, a ≤ j → j < k → out j ≠ AttemptOutcome.success) ∧
      clickLoop out N a last =
        { ok := true, last := l, evs := failRun N a (k - a) ++ [Ev.clickAttempt k] })
    ∨ ((∀ j, a ≤ j → j ≤ N → out j ≠ AttemptOutcome.success) ∧
      clickLoop out N a last =
        { ok := false, last := if a ≤ N then causeOf (out N) else last,
          evs := failRun N a (N + 1 - a) }) := by
  by_cases hex : ∃ k, a ≤ k ∧ k ≤ N ∧ out k = AttemptOutcome.success
  · left
    have hspec := Nat.find_spec hex
    set k0 := Nat.find hex with hk0
    have hmin : ∀ j, a ≤ j → j < k0 → out j ≠ AttemptOutcome.success := by
      intro j h1 h2 hsj
      exact Nat.find_min hex h2 ⟨h1, by omega, hsj⟩
    obtain ⟨l, hl⟩ := clickLoop_first_success out N (k0 - a) k0 a last le_rfl
      hspec.1 hspec.2.1 hspec.2.2 hmin
    exact ⟨k0, l, hspec.1, hspec.2.1, hspec.2.2, hmin, hl⟩
  · right
    push_neg at hex
    have hfail : ∀ j, a ≤ j → j ≤ N → out j ≠ AttemptOutcome.success := by
      intro j h1 h2 hsj
      exact hex j h1 h2 hsj
    exact ⟨hfail, clickLoop_all_fail out N (N + 1 - a) a last le_rfl hfail⟩


theorem countP_click_failRun (N : Nat) :
    ∀ c a, (failRun N a c).countP isClickEv = c := by
  intro c
  induction c with
  | zero => intro a; simp [failRun]
  | succ c ih =>
    intro a
    simp only [failRun, List.countP_append, ih, failEvs]
    by_cases h : a < N <;> simp [h, isClickEv, List.countP_cons] <;> omega

/-! ## Claims about the URL extractor -/

/-- C1: the claim asserts that every body containing the quoted confirmation
link with a non-empty `nftoken` value extracts to exactly that URL and
token, and in particular that a body containing
`"https://www.netflix.com/account/update-primary-location?nftoken=abc123"`
yields that URL with token `abc123`. The code disagrees at exactly that
documented input: the unconditional quoted-printable hex pass rewrites the
three characters `=ab` (an equals sign followed by two hex digits) into the
single character U+00AB before the link is matched, so the `nftoken`
parameter no longer exists in the parsed URL and extraction returns `none`
— even though the URL itself is perfectly valid, as the second conjunct
shows. -/
theorem C1_extract_documented_pattern_returns_none :
    extractNetflixUrl
      "\"https://www.netflix.com/account/update-primary-location?nftoken=abc123\"".toList = none
    ∧ isValidUrl
      "https://www.netflix.com/account/update-primary-location?nftoken=abc123".toList = true :=
  ⟨by decide, by decide⟩

/-- C5: `isValidUrl` returns `true` exactly when the URL parses and the
hostname is `www.netflix.com`, the pathname is
`/account/update-primary-location`, and an `nftoken` query parameter is
present; the closed conjuncts witness that a mismatch in any single one of
the three, or unparseable syntax, yields `false`. -/
theorem C5_isValidUrl_iff :
    (∀ s : List Char, isValidUrl s = true ↔
      ∃ u, parseUrl s = some u ∧ u.hostname = netflixHost ∧ u.pathname = netflixPath ∧
        hasParam u nftokenName = true)
    ∧ isValidUrl "https://www.netflix.com/account/update-primary-location?nftoken=x".toList = true
    ∧ isValidUrl "https://www.netflix.org/account/update-primary-location?nftoken=x".toList = false
    ∧ isValidUrl "https://www.netflix.com/account/update-primary?nftoken=x".toList = false
    ∧ isValidUrl "https://www.netflix.com/account/update-primary-location?token=x".toList = false
    ∧ isValidUrl "not a url".toList = false := by
  refine ⟨?_, by decide, by decide, by decide, by decide, by decide⟩
  intro s
  unfold isValidUrl
  cases h : parseUrl s with
  | none => simp
  | some u => simp [Bool.and_eq_true, beq_iff_eq, and_assoc]

/-- C10: validation is strictly weaker than extraction on the token: the
confirmation URL with an empty `nftoken` value passes `isValidUrl`, yet any
body in which the link matcher finds exactly that URL extracts to `none`,
because extraction additionally requires the token to be non-empty. -/
theorem C10_validation_weaker_than_extraction :
    isValidUrl "https://www.netflix.com/account/update-primary-location?nftoken=".toList = true
    ∧ ∀ body : List Char,
        findLink (decodeBody body) =
          some "https://www.netflix.com/account/update-primary-location?nftoken=".toList →
        extractNetflixUrl body = none := by
  refine ⟨by decide, ?_⟩
  intro body h
  unfold extractNetflixUrl
  rw [h]
  decide

/-- C10 witness: a concrete body consisting of the quoted empty-token link;
the matcher finds the link, and extraction returns `none`. -/
theorem C10_validation_weaker_witness :
    findLink (decodeBody
      "\"https://www.netflix.com/account/update-primary-location?nftoken=\"".toList) =
      some "https://www.netflix.com/account/update-primary-location?nftoken=".toList
    ∧ extractNetflixUrl
      "\"https://www.netflix.com/account/update-primary-location?nftoken=\"".toList = none :=
  ⟨by decide, C10_validation_weaker_than_extraction.2 _ (by decide)⟩

/-! ## Claims about the mail watcher -/

/-- C3: a processed message is marked read (the addFlags Seen call happens)
exactly when the handler was invoked for it and completed successfully; on
handler failure the message stays unmarked and the failure is logged. The
UID hypothesis reflects that search results always carry a positive UID
(JavaScript truthiness makes the code treat 0 like an absent UID). -/
theorem C3_marked_read_iff_handler_success (cfg : ScanCfg) (m : MsgInput) (handlerOk : Bool)
    (h : m.uid ≠ 0) :
    ((∃ u, MsgAction.markSeen u ∈ processMessage cfg m handlerOk) ↔
      (MsgAction.invokeHandler ∈ processMessage cfg m handlerOk ∧ handlerOk = true))
    ∧ (handlerOk = false → MsgAction.invokeHandler ∈ processMessage cfg m handlerOk →
        MsgAction.logHandlerFailed ∈ processMessage cfg m handlerOk) := by
  unfold processMessage
  have hbody :
      ((∃ u, MsgAction.markSeen u ∈ processBody m handlerOk) ↔
        (MsgAction.invokeHandler ∈ processBody m handlerOk ∧ handlerOk = true))
      ∧ (handlerOk = false → MsgAction.invokeHandler ∈ processBody m handlerOk →
          MsgAction.logHandlerFailed ∈ processBody m handlerOk) := by
    unfold processBody
    cases hx : extractNetflixUrl m.bodyText with
    | none => simp
    | some ut =>
      by_cases hv : isValidUrl ut.1 = true
      · cases handlerOk with
        | true => simp [hv, h]
        | false => simp [hv]
      · simp [hv]
  cases hd : m.date with
  | none => exact hbody
  | some d =>
    by_cases hage : cfg.now - d > 60000 * cfg.maxEmailAgeMinutes
    · simp [hage]
    · simpa [hage] using hbody

/-- C3 witness: a fresh message with UID 7 whose body holds a well-formed
quoted link; with a succeeding handler the scan marks exactly it read. -/
theorem C3_marked_read_witness :
    ((∃ u, MsgAction.markSeen u ∈
        processMessage ⟨3, 0⟩
          ⟨none, 7, "\"https://www.netflix.com/account/update-primary-location?nftoken=zz99\"".toList⟩
          true) ↔
      (MsgAction.invokeHandler ∈
        processMessage ⟨3, 0⟩
          ⟨none, 7, "\"https://www.netflix.com/account/update-primary-location?nftoken=zz99\"".toList⟩
          true ∧ true = true))
    ∧ processMessage ⟨3, 0⟩
        ⟨none, 7, "\"https://www.netflix.com/account/update-primary-location?nftoken=zz99\"".toList⟩
        true = [MsgAction.invokeHandler, MsgAction.markSeen 7] :=
  ⟨(C3_marked_read_iff_handler_success ⟨3, 0⟩ _ true (by decide)).1, by decide⟩

/-- C4: a message whose parsed Date header is older than the configured
maximum is skipped with the too-old warning as its only action, so the
confirmation handler is never invoked for it. -/
theorem C4_too_old_never_handled (cfg : ScanCfg) (m : MsgInput) (handlerOk : Bool) (d : Int)
    (hd : m.date = some d) (hage : cfg.now - d > 60000 * cfg.maxEmailAgeMinutes) :
    processMessage cfg m handlerOk = [MsgAction.warnTooOld]
    ∧ MsgAction.invokeHandler ∉ processMessage cfg m handlerOk := by
  unfold processMessage
  simp only [hd]
  rw [if_pos hage]
  exact ⟨rfl, by simp⟩

/-- C4 witness: the spec scenario — maximum age 3 minutes, message sent at
epoch 0, processed 10 minutes (600000 ms) later: skipped, handler never
invoked. -/
theorem C4_too_old_witness :
    processMessage ⟨3, 600000⟩ ⟨some 0, 1, []⟩ true = [MsgAction.warnTooOld]
    ∧ MsgAction.invokeHandler ∉ processMessage ⟨3, 600000⟩ ⟨some 0, 1, []⟩ true :=
  C4_too_old_never_handled ⟨3, 600000⟩ ⟨some 0, 1, []⟩ true 0 rfl (by decide)

/-! ## Claim about startup -/

/-- C9: startup succeeds (reaching the monitor connect call) exactly when no
required credential is missing, and when it fails, the carried list
enumerates exactly the missing variable names. -/
theorem C9_startup_credential_check (lookup : List Char → Option (List Char)) :
    (mainStartup lookup = Except.ok StartupOk.monitorConnected ↔
      ∀ v ∈ requiredEnvVarNames, envVarMissing lookup v = false)
    ∧ ∀ v, (v ∈ requiredEnvVarNames ∧ envVarMissing lookup v = true) ↔
        ∃ l, mainStartup lookup = Except.error l ∧ v ∈ l := by
  unfold mainStartup
  by_cases hm : (missingVars lookup).isEmpty
  · rw [if_pos hm]
    constructor
    · constructor
      · intro _ v hv
        have : v ∉ missingVars lookup := by
          rw [List.isEmpty_iff] at hm
          simp [hm]
        rcases hx : envVarMissing lookup v with hfalse | htrue
        · rfl
        · exact absurd (List.mem_filter.mpr ⟨hv, hx⟩) this
      · intro _; rfl
    · intro v
      constructor
      · intro ⟨hv, hx⟩
        have : v ∈ missingVars lookup := List.mem_filter.mpr ⟨hv, hx⟩
        rw [List.isEmpty_iff] at hm
        simp [hm] at this
      · intro ⟨l, hl, _⟩
        exact absurd hl (by simp)
  · rw [if_neg hm]
    constructor
    · constructor
      · intro hcontra
        exact absurd hcontra (by simp)
      · intro hall
        have : missingVars lookup = [] := by
          apply List.filter_eq_nil_iff.mpr
          intro v hv
          simp [hall v hv]
        rw [List.isEmpty_iff] at hm
        exact absurd this hm
    · intro v
      constructor
      · intro ⟨hv, hx⟩
        exact ⟨missingVars lookup, rfl, List.mem_filter.mpr ⟨hv, hx⟩⟩
      · intro ⟨l, hl, hvl⟩
        have hleq : l = missingVars lookup := by
          injection hl.symm
        rw [hleq] at hvl
        exact ⟨(List.mem_filter.mp hvl).1, (List.mem_filter.mp hvl).2⟩

/-- C9 witness: with IMAP_HOST unset and IMAP_PASSWORD empty, startup fails
and the error lists exactly those two names; the witness also evaluates the
model at that environment. -/
theorem C9_startup_witness :
    (mainStartup
        (fun v => if v = "IMAP_HOST".toList then none
          else if v = "IMAP_PASSWORD".toList then some [] else some ['x']) =
      Except.ok StartupOk.monitorConnected ↔
      ∀ v ∈ requiredEnvVarNames,
        envVarMissing
          (fun v => if v = "IMAP_HOST".toList then none
            else if v = "IMAP_PASSWORD".toList then some [] else some ['x']) v = false)
    ∧ mainStartup
        (fun v => if v = "IMAP_HOST".toList then none
          else if v = "IMAP_PASSWORD".toList then some [] else some ['x']) =
      Except.error ["IMAP_PASSWORD".toList, "IMAP_HOST".toList] :=
  ⟨(C9_startup_credential_check _).1, by decide⟩

/-! ## Claims about the confirmation driver -/

/-- C2: the session-state file is written exactly when the run succeeded; on
every failing run (context error, navigation error, expired link, missing
button, or exhausted retries) the driver throws before the write and the
prior file content is untouched; on success the new snapshot is written. -/
theorem C2_sessionState_iff_success (env : DriverEnv) (N : Nat) (fs : Option Nat) :
    ((netflixAutomation env N fs).result = Except.ok () ↔
      Ev.writeState ∈ (netflixAutomation env N fs).trace)
    ∧ (∀ e, (netflixAutomation env N fs).result = Except.error e →
        (netflixAutomation env N fs).file = fs)
    ∧ ((netflixAutomation env N fs).result = Except.ok () →
        (netflixAutomation env N fs).file = some env.snapshot) := by
  unfold netflixAutomation
  by_cases h1 : env.newContextThrows = true
  · simp [h1]
  · rw [Bool.not_eq_true] at h1
    by_cases h2 : env.navThrows = true
    · simp [h1, h2]
    · rw [Bool.not_eq_true] at h2
      by_cases h3 : env.expiredBanner = true
      · simp [h1, h2, h3]
      · rw [Bool.not_eq_true] at h3
        by_cases h4 : env.buttonPresent = true
        · simp only [h1, h2, h3, h4, Bool.false_eq_true, if_false, if_true]
          rcases clickLoop_run_cases env.outcome N 1 none with
            ⟨k0, l, hk1, hkN, hks, hmin, hL⟩ | ⟨hfail, hL⟩
          · rw [hL]
            simp [List.mem_append]
          · rw [hL]
            simp [List.mem_append, writeState_not_mem_failRun]
        · rw [Bool.not_eq_true] at h4
          by_cases h5 : env.bodyNoLongerValid = true
          · simp [h1, h2, h3, h4, h5]
          · rw [Bool.not_eq_true] at h5
            simp [h1, h2, h3, h4, h5]

/-- C2 witness: a failing run (expired banner) leaves a pre-existing
session-state file with content 5 untouched. -/
theorem C2_sessionState_witness :
    (netflixAutomation envExpired 2 (some 5)).result = Except.error FailKind.expiredLink
    ∧ (netflixAutomation envExpired 2 (some 5)).file = some 5 :=
  ⟨by decide,
    (C2_sessionState_iff_success envExpired 2 (some 5)).2.1 FailKind.expiredLink (by decide)⟩

/-- C6 counterexample: the claim says the browser session is torn down on
every exit path at any step, but browser-context and page creation happen
before the try block whose finally closes the browser: when context
creation throws (for example on a corrupt stored session file), the run
ends with no close event at all. -/
theorem C6_counterexample_no_close_on_context_throw :
    (netflixAutomation envCtxThrow 2 (some 5)).trace.count Ev.closeBrowser = 0
    ∧ (netflixAutomation envCtxThrow 2 (some 5)).result = Except.error FailKind.contextError := by
  constructor
  · decide
  · decide

/-- C6 amended: on every invocation in which browser-context and page
creation succeed, the browser is closed exactly once, on every exit path —
success, typed failure, or navigation timeout. -/
theorem C6_amended_browser_closed_once (env : DriverEnv) (N : Nat) (fs : Option Nat)
    (h : env.newContextThrows = false) :
    ((netflixAutomation env N fs).trace.count Ev.closeBrowser) = 1 := by
  unfold netflixAutomation
  by_cases h2 : env.navThrows = true
  · simp [h, h2]
  · rw [Bool.not_eq_true] at h2
    by_cases h3 : env.expiredBanner = true
    · simp [h, h2, h3]
    · rw [Bool.not_eq_true] at h3
      by_cases h4 : env.buttonPresent = true
      · simp only [h, h2, h3, h4, Bool.false_eq_true, if_false, if_true]
        rcases clickLoop_run_cases env.outcome N 1 none with
          ⟨k0, l, hk1, hkN, hks, hmin, hL⟩ | ⟨hfail, hL⟩
        all_goals
          rw [hL]
          have h0 : ∀ c a, List.count Ev.closeBrowser (failRun N a c) = 0 :=
            fun c a => List.count_eq_zero.mpr (closeBrowser_not_mem_failRun N c a)
          simp [List.count_cons, List.count_append, h0]
      · rw [Bool.not_eq_true] at h4
        by_cases h5 : env.bodyNoLongerValid = true
        · simp [h, h2, h3, h4, h5]
        · rw [Bool.not_eq_true] at h5
          simp [h, h2, h3, h4, h5]

/-- C6 witness for the amended statement: in the retry scenario environment
the browser is closed exactly once. -/
theorem C6_amended_witness :
    (netflixAutomation envRetrySuccess 2 none).trace.count Ev.closeBrowser = 1 :=
  C6_amended_browser_closed_once envRetrySuccess 2 none rfl

/-- C7: when the page shows the expired-link banner, or the confirmation
button is absent and the body contains the no-longer-valid text, the driver
fails with the expired-link error and performs zero click attempts. -/
theorem C7_expired_link_no_retry (env : DriverEnv) (N : Nat) (fs : Option Nat)
    (h1 : env.newContextThrows = false) (h2 : env.navThrows = false)
    (h3 : env.expiredBanner = true ∨
      (env.buttonPresent = false ∧ env.bodyNoLongerValid = true)) :
    (netflixAutomation env N fs).result = Except.error FailKind.expiredLink
    ∧ ∀ k, Ev.clickAttempt k ∉ (netflixAutomation env N fs).trace := by
  unfold netflixAutomation
  rcases h3 with h3 | ⟨h3a, h3b⟩
  · simp [h1, h2, h3]
  · by_cases hb : env.expiredBanner = true
    · simp [h1, h2, hb]
    · rw [Bool.not_eq_true] at hb
      simp [h1, h2, hb, h3a, h3b]

/-- C7 witness: the expired-banner environment fails with the expired-link
error and no click attempt appears in the trace. -/
theorem C7_expired_witness :
    (netflixAutomation envExpired 2 none).result = Except.error FailKind.expiredLink
    ∧ ∀ k, Ev.clickAttempt k ∉ (netflixAutomation envExpired 2 none).trace :=
  C7_expired_link_no_retry envExpired 2 none rfl rfl (Or.inl rfl)

/-- C8: the retry loop clicks at most N times; a failed attempt k followed
by another backs off k time units; the first successful attempt stops the
loop, reports success and writes the session state (clicking exactly
attempts 1..k); and when all N attempts fail the driver fails with the
confirmation-failed error carrying the attempt count and the cause of the
last attempt. -/
theorem C8_retry_loop_behaviour (env : DriverEnv) (N : Nat) (fs : Option Nat)
    (h1 : env.newContextThrows = false) (h2 : env.navThrows = false)
    (h3 : env.expiredBanner = false) (h4 : env.buttonPresent = true) (hN : 1 ≤ N) :
    ((netflixAutomation env N fs).trace.countP isClickEv ≤ N)
    ∧ (∀ k, 1 ≤ k → k < N →
        (∀ j, 1 ≤ j → j ≤ k → env.outcome j ≠ AttemptOutcome.success) →
        Ev.backoff k ∈ (netflixAutomation env N fs).trace)
    ∧ (∀ k, 1 ≤ k → k ≤ N → env.outcome k = AttemptOutcome.success →
        (∀ j, 1 ≤ j → j < k → env.outcome j ≠ AttemptOutcome.success) →
        (netflixAutomation env N fs).result = Except.ok ()
        ∧ Ev.writeState ∈ (netflixAutomation env N fs).trace
        ∧ (netflixAutomation env N fs).trace =
            Ev.launch :: Ev.navigate ::
              ((failRun N 1 (k - 1) ++ [Ev.clickAttempt k]) ++ [Ev.writeState, Ev.closeBrowser])
        ∧ (∀ j, Ev.clickAttempt j ∈ (netflixAutomation env N fs).trace ↔ (1 ≤ j ∧ j ≤ k)))
    ∧ ((∀ j, 1 ≤ j → j ≤ N → env.outcome j ≠ AttemptOutcome.success) →
        (netflixAutomation env N fs).result =
          Except.error (FailKind.confirmFailed N (causeOf (env.outcome N)))
        ∧ (netflixAutomation env N fs).trace =
            Ev.launch :: Ev.navigate :: (failRun N 1 N ++ [Ev.closeBrowser])) := by
  unfold netflixAutomation
  simp only [h1, h2, h3, h4, Bool.false_eq_true, if_false, if_true]
  rcases clickLoop_run_cases env.outcome N 1 none with
    ⟨k0, l, hk1, hkN, hks, hmin, hL⟩ | ⟨hfail, hL⟩
  · rw [hL]
    dsimp only
    refine ⟨?_, ?_, ?_, ?_⟩
    · simp [List.countP_cons, List.countP_append, countP_click_failRun, isClickEv]
      omega
    · intro k hk1' hkN' hfailUpto
      have hkk0 : k < k0 := by
        by_contra hcon
        exact hfailUpto k0 hk1 (by omega) hks
      simp [List.mem_append, backoff_mem_failRun]
      omega
    · intro k hk1' hkN' hks' hmin'
      have hkeq : k = k0 := by
        by_contra hne
        rcases Nat.lt_or_ge k k0 with hlt | hge
        · exact (hmin k hk1' hlt) hks'
        · exact (hmin' k0 hk1 (by omega)) hks
      subst hkeq
      refine ⟨rfl, ?_, rfl, ?_⟩
      · simp [List.mem_append]
      · intro j
        simp [List.mem_append, clickAttempt_mem_failRun]
        omega
    · intro hallfail
      exact absurd hks (hallfail k0 hk1 hkN)
  · rw [hL]
    dsimp only
    refine ⟨?_, ?_, ?_, ?_⟩
    · simp [List.countP_cons, List.countP_append, countP_click_failRun, isClickEv]
    · intro k hk1' hkN' _
      simp [List.mem_append, backoff_mem_failRun]
      omega
    · intro k hk1' hkN' hks' _
      exact absurd hks' (hfail k hk1' hkN')
    · intro _
      rw [if_neg Bool.false_ne_true]
      dsimp only
      have hN1 : N + 1 - 1 = N := by omega
      rw [if_pos hN, hN1]
      exact ⟨rfl, rfl⟩

/-- C8 witness: the spec scenario — two attempts, first click throws, second
succeeds: the driver reports success, writes the session state, and the
trace holds exactly click attempts 1 and 2, with the backoff of attempt 1
between them. -/
theorem C8_retry_witness :
    (netflixAutomation envRetrySuccess 2 none).result = Except.ok ()
    ∧ Ev.writeState ∈ (netflixAutomation envRetrySuccess 2 none).trace
    ∧ (netflixAutomation envRetrySuccess 2 none).trace =
        Ev.launch :: Ev.navigate ::
          ((failRun 2 1 (2 - 1) ++ [Ev.clickAttempt 2]) ++ [Ev.writeState, Ev.closeBrowser])
    ∧ (∀ j, Ev.clickAttempt j ∈ (netflixAutomation envRetrySuccess 2 none).trace ↔
        (1 ≤ j ∧ j ≤ 2)) :=
  (C8_retry_loop_behaviour envRetrySuccess 2 none rfl rfl rfl rfl (by decide)).2.2.1 2
    (by decide) (by decide) (by decide)
    (fun j hj1 hj2 => by
      have hj : j = 1 := by omega
      subst hj
      decide)

end NetflixHousehold
